import Mathlib

/-!
Verification of the jacket-finder scraping and change-detection pipeline.

This file shallowly embeds the core of the `jacket-finder` repository:

* the MD5-based identity scheme (`md5::compute` and `format!("{:x}", _)`
  from `src/scrapers/marrkt.rs` lines 218-219),
* the per-container record extractor, the match-term filter, the sold-out
  filter and the image-URL normalisation of `MarrktScraper::search_jackets`
  (`src/scrapers/marrkt.rs` lines 104-256),
* the pagination walk with its three terminal conditions,
* the change-detection coordinator `JacketFinder::check_for_new_jackets`
  (`src/jacket_finder.rs` lines 310-334) over an abstract identifier store
  with the semantics of `src/database/mod.rs` and the notification sink of
  `src/discord/mod.rs`.

HTML parsing and HTTP transport are capabilities, per the specification: a
parsed product container is represented by the query results the source
reads from it (first link `href`, first title/brand/price node text, image
attributes, the texts of all sold-out-indicator nodes), and a fetched page
by a status code, its containers and the discovered next-page `href`.
Timestamps (`Utc::now()`) are an abstract `Nat` parameter.
-/

set_option autoImplicit false
set_option maxRecDepth 10000

/-! ## Bytes and 32-bit arithmetic -/

/-- Truncated 32-bit addition. -/
def add32 (a b : Nat) : Nat := (a + b) % 4294967296

/-- Bitwise complement on 32 bits. -/
def not32 (a : Nat) : Nat := a ^^^ 4294967295

/-- Left rotation of a 32-bit word by `s` places (`0 < s < 32`). -/
def rotl32 (x s : Nat) : Nat := ((x <<< s) % 4294967296) ||| (x >>> (32 - s))

/-- `n` little-endian bytes of `x` (higher bytes of `x` are dropped). -/
def leBytes : Nat → Nat → List Nat
  | 0, _ => []
  | n + 1, x => (x % 256) :: leBytes n (x / 256)

/-- The value of a little-endian byte list. -/
def bytesToNat : List Nat → Nat
  | [] => 0
  | b :: rest => b + 256 * bytesToNat rest

/-! ## UTF-8 encoding (Rust strings hash their UTF-8 bytes) -/

/-- UTF-8 encoding of a single scalar value. -/
def utf8Char (c : Char) : List Nat :=
  let n := c.toNat
  if n < 128 then [n]
  else if n < 2048 then [192 + n / 64, 128 + n % 64]
  else if n < 65536 then [224 + n / 4096, 128 + n / 64 % 64, 128 + n % 64]
  else [240 + n / 262144, 128 + n / 4096 % 64, 128 + n / 64 % 64, 128 + n % 64]

/-- UTF-8 bytes of a string. -/
def strBytes (s : String) : List Nat := (s.data.map utf8Char).flatten

/-! ## MD5 (RFC 1321), as computed by the `md5` crate -/

/-- The 64 MD5 sine-derived constants. -/
def md5K : List Nat :=
  [0xd76aa478, 0xe8c7b756, 0x242070db, 0xc1bdceee,
   0xf57c0faf, 0x4787c62a, 0xa8304613, 0xfd469501,
   0x698098d8, 0x8b44f7af, 0xffff5bb1, 0x895cd7be,
   0x6b901122, 0xfd987193, 0xa679438e, 0x49b40821,
   0xf61e2562, 0xc040b340, 0x265e5a51, 0xe9b6c7aa,
   0xd62f105d, 0x02441453, 0xd8a1e681, 0xe7d3fbc8,
   0x21e1cde6, 0xc33707d6, 0xf4d50d87, 0x455a14ed,
   0xa9e3e905, 0xfcefa3f8, 0x676f02d9, 0x8d2a4c8a,
   0xfffa3942, 0x8771f681, 0x6d9d6122, 0xfde5380c,
   0xa4beea44, 0x4bdecfa9, 0xf6bb4b60, 0xbebfbc70,
   0x289b7ec6, 0xeaa127fa, 0xd4ef3085, 0x04881d05,
   0xd9d4d039, 0xe6db99e5, 0x1fa27cf8, 0xc4ac5665,
   0xf4292244, 0x432aff97, 0xab9423a7, 0xfc93a039,
   0x655b59c3, 0x8f0ccc92, 0xffeff47d, 0x85845dd1,
   0x6fa87e4f, 0xfe2ce6e0, 0xa3014314, 0x4e0811a1,
   0xf7537e82, 0xbd3af235, 0x2ad7d2bb, 0xeb86d391]

/-- The 64 MD5 per-round left-rotation amounts. -/
def md5S : List Nat :=
  [7, 12, 17, 22, 7, 12, 17, 22, 7, 12, 17, 22, 7, 12, 17, 22,
   5, 9, 14, 20, 5, 9, 14, 20, 5, 9, 14, 20, 5, 9, 14, 20,
   4, 11, 16, 23, 4, 11, 16, 23, 4, 11, 16, 23, 4, 11, 16, 23,
   6, 10, 15, 21, 6, 10, 15, 21, 6, 10, 15, 21, 6, 10, 15, 21]

/-- MD5 round function F. -/
def md5F (b c d : Nat) : Nat := (b &&& c) ||| (not32 b &&& d)

/-- MD5 round function G. -/
def md5G (b c d : Nat) : Nat := (d &&& b) ||| (not32 d &&& c)

/-- MD5 round function H. -/
def md5H (b c d : Nat) : Nat := b ^^^ c ^^^ d

/-- MD5 round function I. -/
def md5I (b c d : Nat) : Nat := c ^^^ (b ||| not32 d)

/-- Group a 64-byte chunk into sixteen little-endian 32-bit words. -/
def toWords : List Nat → List Nat
  | b0 :: b1 :: b2 :: b3 :: rest =>
      (b0 + 256 * b1 + 65536 * b2 + 16777216 * b3) :: toWords rest
  | _ => []

/-- One MD5 step on state `(a, b, c, d)` for round index `i`. -/
def md5Round (M : List Nat) (st : Nat × Nat × Nat × Nat) (i : Nat) :
    Nat × Nat × Nat × Nat :=
  let (a, b, c, d) := st
  let fg : Nat × Nat :=
    if i < 16 then (md5F b c d, i)
    else if i < 32 then (md5G b c d, (5 * i + 1) % 16)
    else if i < 48 then (md5H b c d, (3 * i + 5) % 16)
    else (md5I b c d, (7 * i) % 16)
  let t := add32 b
    (rotl32 (add32 (add32 (add32 a fg.1) (md5K.getD i 0)) (M.getD fg.2 0))
      (md5S.getD i 0))
  (d, t, b, c)

/-- Process one 64-byte chunk, adding the mixed state to the running state. -/
def md5Chunk (st : Nat × Nat × Nat × Nat) (chunk : List Nat) :
    Nat × Nat × Nat × Nat :=
  let M := toWords chunk
  let r := (List.range 64).foldl (md5Round M) st
  (add32 st.1 r.1, add32 st.2.1 r.2.1, add32 st.2.2.1 r.2.2.1,
   add32 st.2.2.2 r.2.2.2)

/-- MD5 initial state. -/
def md5Init : Nat × Nat × Nat × Nat :=
  (0x67452301, 0xefcdab89, 0x98badcfe, 0x10325476)

/-- MD5 padding: `0x80`, zeros to 56 mod 64, the bit length on 8 bytes. -/
def md5Pad (m : List Nat) : List Nat :=
  m ++ 0x80 :: (List.replicate ((119 - m.length % 64) % 64) 0
    ++ leBytes 8 (8 * m.length))

/-- Split a byte list into 64-byte chunks. The first argument is
recursion fuel; any fuel of at least `l.length` (and at least 1 chunk)
yields all chunks, since every step consumes 64 bytes. -/
def chunksOf64 : Nat → List Nat → List (List Nat)
  | 0, _ => []
  | fuel + 1, l => if l = [] then [] else l.take 64 :: chunksOf64 fuel (l.drop 64)

/-- The 16-byte MD5 digest of a byte list. -/
def md5Bytes (m : List Nat) : List Nat :=
  let padded := md5Pad m
  let r := (chunksOf64 padded.length padded).foldl md5Chunk md5Init
  leBytes 4 r.1 ++ leBytes 4 r.2.1 ++ leBytes 4 r.2.2.1 ++ leBytes 4 r.2.2.2

/-! ## Lowercase hexadecimal rendering (`format!("{:x}", digest)`) -/

/-- The sixteen lowercase hexadecimal digits. -/
def hexChars : List Char := "0123456789abcdef".data

/-- The lowercase hexadecimal digit for a nibble. -/
def hexDigit (n : Nat) : Char := hexChars.getD n '0'

/-- Two lowercase hexadecimal digits of a byte. -/
def byteHex (b : Nat) : List Char := [hexDigit (b / 16 % 16), hexDigit (b % 16)]

/-- Lowercase hexadecimal string of a byte list. -/
def hexOfBytes (l : List Nat) : String := String.mk (l.map byteHex).flatten

/-- The MD5 digest of a string, rendered in lowercase hexadecimal:
`format!("{:x}", md5::compute(s))`. -/
def md5Hex (s : String) : String := hexOfBytes (md5Bytes (strBytes s))

/-! ## String operations used by the extractor -/

/-- Rust `str::trim`: drop leading and trailing whitespace. -/
def trimStr (s : String) : String :=
  String.mk
    (((s.data.dropWhile Char.isWhitespace).reverse.dropWhile
      Char.isWhitespace).reverse)

/-- Rust `str::replace` on character lists (first argument is recursion
fuel, at least the list length): replace every non-overlapping occurrence
of `pat`, left to right. The patterns used by the source are non-empty. -/
def replaceAux (pat rep : List Char) : Nat → List Char → List Char
  | 0, l => l
  | _, [] => []
  | fuel + 1, c :: rest =>
    if pat ≠ [] ∧ pat.isPrefixOf (c :: rest) then
      rep ++ replaceAux pat rep fuel (List.drop pat.length (c :: rest))
    else c :: replaceAux pat rep fuel rest

/-- Rust `str::replace`. -/
def strReplace (s pat rep : String) : String :=
  String.mk (replaceAux pat.data rep.data s.data.length s.data)

/-- Rust `str::starts_with`. -/
def strStartsWith (s pat : String) : Bool := pat.data.isPrefixOf s.data

/-- Rust substring `String::contains`. -/
def strContains (s pat : String) : Bool := decide (pat.data <:+: s.data)

/-- Rust `String::to_lowercase` (per-character lowering). -/
def lowerStr (s : String) : String := String.mk (s.data.map Char.toLower)

/-- `url.truncate(query_start)` after `url.find('?')`: everything from the
first `?` on is removed (`src/scrapers/marrkt.rs` lines 136-138). -/
def stripQuery (s : String) : String := String.mk (s.data.takeWhile (· != '?'))

/-! ## Site configuration (`src/traits.rs`) -/

/-- CSS selectors for different parts of a product listing
(`SiteSelectors`, `src/traits.rs` lines 25-44). The selector strings only
address the parsed page; the per-selector query results are carried by
`Product` below. -/
structure SiteSelectors where
  product_container : String
  title : String
  price : String
  brand : Option String
  link : String
  image : String
  pagination_container : String
  pagination_next : String
  sold_out_indicator : Option String

/-- Configuration for a website scraper (`ScraperConfig`, `src/traits.rs`
lines 10-21). -/
structure ScraperConfig where
  name : String
  base_url : String
  search_url_pattern : String
  selectors : SiteSelectors
  search_terms : List String

/-- The Marrkt configuration (`src/scrapers/marrkt.rs` lines 26-42). -/
def marrktConfig : ScraperConfig where
  name := "Marrkt"
  base_url := "https://www.marrkt.com"
  search_url_pattern := "https://www.marrkt.com/search?q={query}"
  selectors :=
    { product_container := ".product-card-wrapper"
      title := ".product-title a, .card-title a"
      price := ".product-price-exc-vat"
      brand := some ".card-subtitle"
      link := ".product-card a, .card-image a"
      image := ".responsive-image__image"
      pagination_container := "ul.pagination"
      pagination_next := "a.pagination-next"
      sold_out_indicator := some ".card-body p" }
  search_terms := ["n-1 deck jacket", "deck jacket"]

/-! ## Data model (`src/models/mod.rs`) -/

/-- A scraped jacket listing (`Jacket`, `src/models/mod.rs`).
`discovered_at` is an abstract timestamp. -/
structure Jacket where
  id : String
  title : String
  price : String
  url : String
  image_url : Option String
  discovered_at : Nat
deriving DecidableEq

/-- One product container of a parsed search-result page, represented by
the query results the extractor reads from it: the first link `href`, the
first title, brand and price node texts, the image `data-src`/`src`
attributes, and the texts of all sold-out-indicator nodes. -/
structure Product where
  linkHref : Option String
  titleText : Option String
  brandText : Option String
  priceText : Option String
  imageDataSrc : Option String
  imageSrc : Option String
  soldOutTexts : List String

/-! ## Record extractor (`src/scrapers/marrkt.rs` lines 125-231) -/

/-- Resolve an `href` against the base URL (lines 129-133). -/
def absolutize (cfg : ScraperConfig) (href : String) : String :=
  if strStartsWith href "http" then href else cfg.base_url ++ href

/-- The canonical URL of a product link: absolutized, query stripped
(lines 129-138). -/
def canonicalUrlOfHref (cfg : ScraperConfig) (href : String) : String :=
  stripQuery (absolutize cfg href)

/-- The listing identity
`format!("{:x}", md5::compute(format!("{}:{}", name, url)))` (line 219). -/
def jacketId (site url : String) : String := md5Hex (site ++ ":" ++ url)

/-- Product title text, `"Unknown Item"` when the node is absent
(lines 145-148). -/
def productTitleOf (p : Product) : String :=
  match p.titleText with
  | none => "Unknown Item"
  | some t => trimStr t

/-- Brand text, `"Unknown Brand"` when the selector is unconfigured or the
node is absent (lines 150-157). -/
def brandOf (cfg : ScraperConfig) (p : Product) : String :=
  match cfg.selectors.brand with
  | some _ =>
    match p.brandText with
    | none => "Unknown Brand"
    | some t => trimStr t
  | none => "Unknown Brand"

/-- Combined brand and product name (lines 159-164). -/
def titleOf (cfg : ScraperConfig) (p : Product) : String :=
  let brand := brandOf cfg p
  if brand == "Unknown Brand" then productTitleOf p
  else brand ++ " - " ++ productTitleOf p

/-- The match filter: the lower-cased title must contain some configured
search term (lines 166-170). -/
def matchesSearchTerm (cfg : ScraperConfig) (title : String) : Bool :=
  cfg.search_terms.any fun term => strContains (lowerStr title) (lowerStr term)

/-- The availability filter: with a configured sold-out-indicator selector,
some matching node has trimmed text `"Sold Out"` (lines 176-185). -/
def isSoldOut (cfg : ScraperConfig) (p : Product) : Bool :=
  match cfg.selectors.sold_out_indicator with
  | some _ => p.soldOutTexts.any fun t => trimStr t == "Sold Out"
  | none => false

/-- Price text, sentinel when absent (lines 187-190). -/
def priceOf (p : Product) : String :=
  match p.priceText with
  | none => "Price not found"
  | some t => trimStr t

/-- Image URL normalisation (lines 201-216). -/
def normalizeImageUrl (cfg : ScraperConfig) (src : String) : String :=
  let processed :=
    if strStartsWith src "http" then src
    else if strStartsWith src "//" then "https:" ++ src
    else cfg.base_url ++ src
  if strContains processed "{width}" then strReplace processed "{width}" "800"
  else processed

/-- Image URL: `data-src` preferred over `src`, then normalised
(lines 192-216). -/
def imageUrlOf (cfg : ScraperConfig) (p : Product) : Option String :=
  (match p.imageDataSrc with
   | some s => some s
   | none => p.imageSrc).map (normalizeImageUrl cfg)

/-- `all_jackets.contains_key(&url)`: the dedup map is keyed by the
canonical URL, which is also the `url` field of the stored jacket
(lines 141-143, 230). -/
def seenContains (seen : List Jacket) (url : String) : Bool :=
  seen.any fun j => j.url == url

/-- The record extractor for one product container (lines 126-231):
`none` means the container is skipped (no link, already seen, no matching
term, or sold out). -/
def processProduct (cfg : ScraperConfig) (seen : List Jacket) (now : Nat)
    (p : Product) : Option Jacket :=
  match p.linkHref with
  | none => none
  | some href =>
    let url := canonicalUrlOfHref cfg href
    if seenContains seen url then none
    else
      let title := titleOf cfg p
      if !matchesSearchTerm cfg title then none
      else if isSoldOut cfg p then none
      else some
        { id := jacketId cfg.name url
          title := title
          price := priceOf p
          url := url
          image_url := imageUrlOf cfg p
          discovered_at := now }

/-- Fold the extractor over the containers of one page, appending each
emitted jacket to the dedup map (lines 125-232). -/
def processPage (cfg : ScraperConfig) (now : Nat) (seen : List Jacket)
    (prods : List Product) : List Jacket :=
  prods.foldl
    (fun s p =>
      match processProduct cfg s now p with
      | some j => s ++ [j]
      | none => s)
    seen

/-! ## Pagination driver (`src/scrapers/marrkt.rs` lines 88-256) -/

/-- A fetched search-result page: HTTP status, product containers, and the
raw `href` of the pagination-next node when the pagination container and
its next link exist (consumed by `extract_next_page_url`, lines 268-282). -/
structure FetchPage where
  status : Nat
  products : List Product
  nextHref : Option String

/-- `reqwest::StatusCode::is_success`: `200 ≤ s < 300`. -/
def isSuccessStatus (s : Nat) : Bool := decide (200 ≤ s) && decide (s < 300)

/-- `extract_next_page_url` (lines 268-282): absolutize the next node
`href`. -/
def extractNextPageUrl (cfg : ScraperConfig) (page : FetchPage) : Option String :=
  page.nextHref.map fun href =>
    if strStartsWith href "http" then href else cfg.base_url ++ href

/-- The abort message for a non-success page fetch (lines 107-113). -/
def pageErrorMsg (pageNum : Nat) (term siteName : String) (status : Nat) :
    String :=
  "Failed to fetch search page " ++ toString pageNum ++ " for " ++ term
    ++ " on " ++ siteName ++ ": " ++ toString status

/-- `const MAX_PAGES: u32 = 50` (line 56). -/
def maxPages : Nat := 50

/-- The pagination loop for one search term (lines 95-256). `fetch` is the
HTTP capability; pages are fetched one at a time starting from page number
`pageNum`. The loop terminates when the page number passes `maxPages`
(soft stop), a fetch has a non-success status (error, collected results
discarded), the next URL equals the current one, or no next link exists.
The first component logs the URLs fetched so far; `fuel` only bounds the
recursion and satisfies `fuel ≥ 52 - pageNum` at every reachable call, so
the `0` case is never taken from `searchTermWalk`. -/
def paginationWalk (fetch : String → FetchPage) (cfg : ScraperConfig)
    (now : Nat) (term : String) :
    Nat → Nat → String → List Jacket → List String →
      List String × Except String (List Jacket)
  | 0, _, _, seen, log => (log, .ok seen)
  | fuel + 1, pageNum, url, seen, log =>
    if maxPages < pageNum then (log, .ok seen)
    else
      let page := fetch url
      if !isSuccessStatus page.status then
        (log ++ [url], .error (pageErrorMsg pageNum term cfg.name page.status))
      else
        let next := extractNextPageUrl cfg page
        let seen2 := processPage cfg now seen page.products
        match next with
        | some nextUrl =>
          if nextUrl == url then (log ++ [url], .ok seen2)
          else
            paginationWalk fetch cfg now term fuel (pageNum + 1) nextUrl seen2
              (log ++ [url])
        | none => (log ++ [url], .ok seen2)

/-- `urlencoding::encode`: percent-encode every byte of a character that is
not ASCII alphanumeric or `-`, `_`, `.`, `~`, with uppercase hex digits. -/
def percentEncodeChar (c : Char) : List Char :=
  if c.isAlphanum || c == '-' || c == '_' || c == '.' || c == '~' then [c]
  else
    ((utf8Char c).map fun b =>
      ['%', "0123456789ABCDEF".data.getD (b / 16 % 16) '0',
        "0123456789ABCDEF".data.getD (b % 16) '0']).flatten

/-- `urlencoding::encode` over a string. -/
def urlencode (s : String) : String :=
  String.mk (s.data.map percentEncodeChar).flatten

/-- `build_search_url` (`src/traits.rs` lines 74-77). -/
def buildSearchUrl (cfg : ScraperConfig) (term : String) : String :=
  strReplace cfg.search_url_pattern "{query}" (urlencode term)

/-- The walk for one search term: page number 1, the search URL built from
the template, 51 units of fuel (the loop runs at most 50 fetches before
the `pageNum > maxPages` soft stop at page number 51). -/
def searchTermWalk (fetch : String → FetchPage) (cfg : ScraperConfig)
    (now : Nat) (seen : List Jacket) (term : String) :
    List String × Except String (List Jacket) :=
  paginationWalk fetch cfg now term 51 1 (buildSearchUrl cfg term) seen []

/-- The loop over configured search terms (lines 88-257): a page fetch
error aborts the whole call (`?`-style propagation), discarding the dedup
map collected so far. -/
def searchTermsLoop (fetch : String → FetchPage) (cfg : ScraperConfig)
    (now : Nat) : List String → List Jacket → Except String (List Jacket)
  | [], seen => .ok seen
  | term :: rest, seen =>
    match (searchTermWalk fetch cfg now seen term).2 with
    | .error e => .error e
    | .ok seen2 => searchTermsLoop fetch cfg now rest seen2

/-- `search_jackets` (lines 55-266): all search terms folded through one
shared dedup map, which is also the returned listing set. -/
def searchJackets (fetch : String → FetchPage) (cfg : ScraperConfig)
    (now : Nat) : Except String (List Jacket) :=
  searchTermsLoop fetch cfg now cfg.search_terms []

/-! ## Notification sink (`src/discord/mod.rs` lines 194-238) -/

/-- Outcome of one webhook delivery attempt: no webhook configured, a
transport-level failure of the POST (`send().await?`), or an HTTP
response with some status. -/
inductive NotifyOutcome where
  | noWebhook
  | transportError (msg : String)
  | httpResponse (status : Nat)

/-- `send_notification`: with no webhook it silently succeeds; a transport
error propagates; an HTTP response returns `Ok` whatever its status — a
non-success status is only logged (lines 228-237). -/
def sendNotification : NotifyOutcome → Except String Unit
  | .noWebhook => .ok ()
  | .transportError msg => .error msg
  | .httpResponse _ => .ok ()

/-! ## Persistence (`src/database/mod.rs` lines 163-247) -/

/-- `save_jacket`: `INSERT INTO jackets ...` with `id` as primary key; a
duplicate insert violates the constraint and fails. The store is the list
of persisted identifiers. -/
def saveJacket (db : List String) (j : Jacket) : Except String (List String) :=
  if db.contains j.id then .error "UNIQUE constraint failed: jackets.id"
  else .ok (db ++ [j.id])

/-! ## Change-detection coordinator (`src/jacket_finder.rs` lines 310-334) -/

/-- The per-jacket loop of `check_for_new_jackets` (lines 316-325):
`existing` is the identifier set read once at the start; a save or a
notification error propagates (the `?` operators on lines 320-321),
leaving the store as it is. The first component is the final store, the
second the error or the count of new jackets. -/
def checkLoop (notify : Jacket → NotifyOutcome) (existing : List String) :
    List Jacket → List String → Nat → List String × Except String Nat
  | [], db, n => (db, .ok n)
  | j :: rest, db, n =>
    if !existing.contains j.id then
      match saveJacket db j with
      | .error e => (db, .error e)
      | .ok db2 =>
        match sendNotification (notify j) with
        | .error e => (db2, .error e)
        | .ok _ => checkLoop notify existing rest db2 (n + 1)
    else checkLoop notify existing rest db n

/-- One polling cycle over an already-scraped listing set (lines 310-334):
read the known identifiers (`get_existing_jacket_ids`), then process each
jacket in order. -/
def checkForNewJackets (notify : Jacket → NotifyOutcome) (db : List String)
    (jackets : List Jacket) : List String × Except String Nat :=
  checkLoop notify db jackets db 0

/-- Decidable equality for `Except`, for concrete evaluations. -/
instance {e a : Type} [DecidableEq e] [DecidableEq a] : DecidableEq (Except e a) :=
  fun x y =>
    match x, y with
    | .error e1, .error e2 =>
      if h : e1 = e2 then .isTrue (by rw [h])
      else .isFalse fun hh => h (by injection hh)
    | .error e1, .ok a2 => .isFalse fun hh => Except.noConfusion hh
    | .ok a1, .error e2 => .isFalse fun hh => Except.noConfusion hh
    | .ok a1, .ok a2 =>
      if h : a1 = a2 then .isTrue (by rw [h])
      else .isFalse fun hh => h (by injection hh)

/-! ## Concrete inputs used by witnesses and counterexamples -/

/-- A default jacket, used only to read values out of `Option Jacket`. -/
def defaultJacket : Jacket :=
  { id := "", title := "", price := "", url := "", image_url := none,
    discovered_at := 0 }

/-- A matching product container whose sold-out node reads `"Sold Out"`. -/
def soldOutProduct : Product :=
  { linkHref := some "/products/n1-deck", titleText := some "N-1 Deck Jacket",
    brandText := some "Buzz Rickson", priceText := some "100",
    imageDataSrc := none, imageSrc := none, soldOutTexts := ["  Sold Out  "] }

/-- A product container whose title matches no configured search term. -/
def unrelatedProduct : Product :=
  { linkHref := some "/products/chinos", titleText := some "Officer Chinos",
    brandText := some "OrSlow", priceText := some "80",
    imageDataSrc := none, imageSrc := none, soldOutTexts := [] }

/-- A matching container whose link carries the query string `?variant=1`. -/
def queryProduct1 : Product :=
  { linkHref := some "https://www.marrkt.com/products/n1-deck?variant=1",
    titleText := some "N-1 Deck Jacket", brandText := some "Buzz Rickson",
    priceText := some "100", imageDataSrc := none, imageSrc := none,
    soldOutTexts := [] }

/-- The same container with the query string `?v=2&x=3` instead. -/
def queryProduct2 : Product :=
  { queryProduct1 with
    linkHref := some "https://www.marrkt.com/products/n1-deck?v=2&x=3" }

/-- A matching container whose brand node is absent. -/
def noBrandProduct : Product :=
  { linkHref := some "/products/n1-deck", titleText := some "N-1 Deck Jacket",
    brandText := none, priceText := some "100", imageDataSrc := none,
    imageSrc := none, soldOutTexts := [] }

/-- Jackets with distinct identifiers, for coordinator runs. -/
def jacketA : Jacket :=
  { id := "a", title := "TA", price := "1", url := "ua", image_url := none,
    discovered_at := 0 }

/-- Second jacket for coordinator runs. -/
def jacketB : Jacket :=
  { id := "b", title := "TB", price := "2", url := "ub", image_url := none,
    discovered_at := 0 }

/-- A fetch capability for the partial-results scenario: the first search
page succeeds with one matching product and advertises a second page,
whose fetch returns status 500. -/
def failingFetch : String → FetchPage := fun url =>
  if url == buildSearchUrl marrktConfig "n-1 deck jacket" then
    { status := 200, products := [noBrandProduct],
      nextHref := some "/search?q=n-1&page=2" }
  else { status := 500, products := [], nextHref := none }

/-- The page addresses of the synthetic two-page self-loop sequence. -/
def loopUrl : Nat → String := fun i => "http://x/p" ++ toString i

/-- A fetch capability whose every page advertises page 2 as next: page 1
chains to page 2, and page 2 points back to itself. -/
def loopFetch : String → FetchPage := fun _ =>
  { status := 200, products := [], nextHref := some "http://x/p2" }

/-- A fetch capability that always answers 500. -/
def alwaysFailFetch : String → FetchPage := fun _ =>
  { status := 500, products := [], nextHref := none }

/-! ## Extractor lemmas -/

/-- Inversion for an emitted record: its fields come from the container,
its `id` is the MD5 identity of the site name and its canonical URL, and
the match filter accepted its title. -/
theorem processProduct_some {cfg : ScraperConfig} {seen : List Jacket}
    {now : Nat} {p : Product} {j : Jacket}
    (h : processProduct cfg seen now p = some j) :
    ∃ href, p.linkHref = some href ∧
      j.url = canonicalUrlOfHref cfg href ∧
      j.id = jacketId cfg.name j.url ∧
      j.title = titleOf cfg p ∧
      matchesSearchTerm cfg (titleOf cfg p) = true ∧
      isSoldOut cfg p = false ∧
      j.discovered_at = now := by
  unfold processProduct at h
  cases hl : p.linkHref with
  | none => rw [hl] at h; exact absurd h (by simp)
  | some href =>
    rw [hl] at h
    simp only at h
    refine ⟨href, rfl, ?_⟩
    by_cases h1 : seenContains seen (canonicalUrlOfHref cfg href)
    · rw [if_pos h1] at h; exact absurd h (by simp)
    · rw [if_neg h1] at h
      by_cases h2 : matchesSearchTerm cfg (titleOf cfg p) = true
      · rw [h2] at h
        simp only [Bool.not_true, Bool.false_eq_true, if_false] at h
        by_cases h3 : isSoldOut cfg p = true
        · rw [if_pos h3] at h; exact absurd h (by simp)
        · rw [if_neg h3] at h
          injection h with h
          subst h
          exact ⟨rfl, rfl, rfl, h2, Bool.eq_false_iff.mpr h3, rfl⟩
      · have h2f : matchesSearchTerm cfg (titleOf cfg p) = false :=
          Bool.eq_false_iff.mpr h2
        rw [h2f] at h
        simp at h

/-- C4: for every product container processed by the extractor, if a
sold-out-indicator selector is configured and some matching node trims to
the literal `"Sold Out"`, the candidate is never emitted. -/
theorem sold_out_never_emitted (cfg : ScraperConfig) (seen : List Jacket)
    (now : Nat) (p : Product)
    (hsel : cfg.selectors.sold_out_indicator.isSome = true)
    (htxt : p.soldOutTexts.any (fun t => trimStr t == "Sold Out") = true) :
    processProduct cfg seen now p = none := by
  have hso : isSoldOut cfg p = true := by
    unfold isSoldOut
    cases hs : cfg.selectors.sold_out_indicator with
    | none => rw [hs] at hsel; simp at hsel
    | some sel => exact htxt
  unfold processProduct
  cases p.linkHref with
  | none => rfl
  | some href => simp [hso]

/-- C4 witness: the Marrkt configuration has a sold-out selector, the
concrete container has a node trimming to `"Sold Out"` (and a matching
title), and the extractor emits nothing for it. -/
theorem sold_out_never_emitted_witness :
    marrktConfig.selectors.sold_out_indicator.isSome = true ∧
    soldOutProduct.soldOutTexts.any (fun t => trimStr t == "Sold Out") = true ∧
    matchesSearchTerm marrktConfig (titleOf marrktConfig soldOutProduct) = true ∧
    processProduct marrktConfig [] 0 soldOutProduct = none :=
  ⟨by decide, by decide, by decide,
    sold_out_never_emitted marrktConfig [] 0 soldOutProduct (by decide) (by decide)⟩

/-- C5: a candidate whose combined lower-cased title contains none of the
configured search terms is never emitted. -/
theorem unmatched_title_never_emitted (cfg : ScraperConfig)
    (seen : List Jacket) (now : Nat) (p : Product)
    (h : ∀ term ∈ cfg.search_terms,
      strContains (lowerStr (titleOf cfg p)) (lowerStr term) = false) :
    processProduct cfg seen now p = none := by
  have hm : matchesSearchTerm cfg (titleOf cfg p) = false := by
    unfold matchesSearchTerm
    rw [List.any_eq_false]
    intro t ht
    rw [h t ht]
    simp
  unfold processProduct
  cases p.linkHref with
  | none => rfl
  | some href => simp [hm]

/-- C5 witness: no Marrkt search term occurs in the concrete container's
combined title, and the extractor emits nothing for it. -/
theorem unmatched_title_never_emitted_witness :
    (∀ term ∈ marrktConfig.search_terms,
      strContains (lowerStr (titleOf marrktConfig unrelatedProduct))
        (lowerStr term) = false) ∧
    processProduct marrktConfig [] 0 unrelatedProduct = none :=
  ⟨by decide,
    unmatched_title_never_emitted marrktConfig [] 0 unrelatedProduct (by decide)⟩

/-! ## Digest shape lemmas -/

/-- `leBytes` always yields exactly `n` bytes. -/
theorem leBytes_length (n : Nat) : ∀ x, (leBytes n x).length = n := by
  induction n with
  | zero => intro x; rfl
  | succ k ih => intro x; simp [leBytes, ih]

/-- Every entry of `leBytes` is a byte. -/
theorem leBytes_lt (n : Nat) : ∀ x, ∀ b ∈ leBytes n x, b < 256 := by
  induction n with
  | zero => intro x b hb; simp [leBytes] at hb
  | succ k ih =>
    intro x b hb
    simp only [leBytes, List.mem_cons] at hb
    rcases hb with h | h
    · omega
    · exact ih _ b h

/-- An MD5 digest has exactly 16 bytes. -/
theorem md5Bytes_length (m : List Nat) : (md5Bytes m).length = 16 := by
  simp [md5Bytes, leBytes_length]

/-- Every entry of an MD5 digest is a byte. -/
theorem md5Bytes_lt (m : List Nat) : ∀ b ∈ md5Bytes m, b < 256 := by
  intro b hb
  simp only [md5Bytes, List.mem_append] at hb
  rcases hb with ((h | h) | h) | h <;> exact leBytes_lt _ _ b h

/-- The rendered hex string has two characters per byte. -/
theorem hexOfBytes_length (l : List Nat) : (hexOfBytes l).length = 2 * l.length := by
  induction l with
  | nil => rfl
  | cons b rest ih =>
    show (byteHex b ++ (rest.map byteHex).flatten).length = 2 * (rest.length + 1)
    rw [List.length_append]
    have : ((rest.map byteHex).flatten).length = 2 * rest.length := ih
    simp [byteHex, this]
    omega

/-- Every hex digit is one of the sixteen lowercase hex characters. -/
theorem hexDigit_mem (n : Nat) : hexDigit n ∈ hexChars := by
  unfold hexDigit
  rcases Nat.lt_or_ge n 16 with h | h
  · interval_cases n <;> decide
  · rw [List.getD_eq_default]
    · decide
    · simpa using h

/-- Every character of the rendered hex string is a lowercase hex digit. -/
theorem hexOfBytes_mem (l : List Nat) :
    ∀ c ∈ (hexOfBytes l).data, c ∈ hexChars := by
  intro c hc
  simp only [hexOfBytes, List.mem_flatten, List.mem_map] at hc
  obtain ⟨chunk, ⟨b, _, rfl⟩, hcc⟩ := hc
  simp only [byteHex, List.mem_cons] at hcc
  rcases hcc with rfl | rfl | h
  · exact hexDigit_mem _
  · exact hexDigit_mem _
  · simp at h

/-- C10: every emitted record's `id` is exactly 32 characters of lowercase
hexadecimal — the MD5 digest of `"{site}:{canonical_url}"` rendered with
`format!("{:x}", _)` — for every configuration, container and input. -/
theorem emitted_id_is_32_lowercase_hex (cfg : ScraperConfig)
    (seen : List Jacket) (now : Nat) (p : Product) (j : Jacket)
    (h : processProduct cfg seen now p = some j) :
    j.id.length = 32 ∧ ∀ c ∈ j.id.data, c ∈ hexChars := by
  obtain ⟨href, _, _, hid, _⟩ := processProduct_some h
  rw [hid]
  constructor
  · show (hexOfBytes (md5Bytes _)).length = 32
    rw [hexOfBytes_length, md5Bytes_length]
  · exact hexOfBytes_mem _

/-- C10 witness: the concrete emitted record's identifier is 32 lowercase
hex characters. -/
theorem emitted_id_witness :
    ((processProduct marrktConfig [] 0 noBrandProduct).getD defaultJacket).id.length = 32 ∧
    ∀ c ∈ ((processProduct marrktConfig [] 0 noBrandProduct).getD defaultJacket).id.data,
      c ∈ hexChars := by
  have h : processProduct marrktConfig [] 0 noBrandProduct =
      some ((processProduct marrktConfig [] 0 noBrandProduct).getD defaultJacket) := by
    rfl
  exact emitted_id_is_32_lowercase_hex marrktConfig [] 0 noBrandProduct _ h

/-! ## Canonical URL lemmas -/

/-- A prefix test ignores everything from a `'?'` on when the pattern has
no `'?'`. -/
theorem isPrefixOf_append_mark (pat : List Char) (hp : '?' ∉ pat) :
    ∀ (base r : List Char),
      pat.isPrefixOf (base ++ '?' :: r) = pat.isPrefixOf base := by
  induction pat with
  | nil => intro base r; simp [List.isPrefixOf]
  | cons c pt ih =>
    intro base r
    have hc : c ≠ '?' := fun hc => hp (hc ▸ List.mem_cons_self c pt)
    have hpt : '?' ∉ pt := fun hm => hp (List.mem_cons_of_mem c hm)
    cases base with
    | nil =>
      show ((c == '?') && _) = false
      rw [beq_eq_false_iff_ne.mpr hc]
      rfl
    | cons b bt =>
      show ((c == b) && pt.isPrefixOf (bt ++ '?' :: r)) = ((c == b) && pt.isPrefixOf bt)
      rw [ih hpt bt r]

/-- `takeWhile (· != '?')` keeps a `'?'`-free list whole. -/
theorem takeWhile_no_mark {l : List Char} (h : '?' ∉ l) :
    l.takeWhile (· != '?') = l := by
  induction l with
  | nil => rfl
  | cons c rest ih =>
    have hc : c ≠ '?' := fun hc => h (hc ▸ List.mem_cons_self c rest)
    have hrest : '?' ∉ rest := fun hm => h (List.mem_cons_of_mem c hm)
    simp [List.takeWhile_cons, bne_iff_ne.mpr hc, ih hrest]

/-- `takeWhile (· != '?')` truncates at the first `'?'`. -/
theorem takeWhile_append_mark {l : List Char} (r : List Char) (h : '?' ∉ l) :
    (l ++ '?' :: r).takeWhile (· != '?') = l := by
  induction l with
  | nil => simp [List.takeWhile_cons]
  | cons c rest ih =>
    have hc : c ≠ '?' := fun hc => h (hc ▸ List.mem_cons_self c rest)
    have hrest : '?' ∉ rest := fun hm => h (List.mem_cons_of_mem c hm)
    simp [List.takeWhile_cons, bne_iff_ne.mpr hc, ih hrest]

/-- The character list of `base ++ "?" ++ q`. -/
theorem data_append_query (base q : String) :
    (base ++ "?" ++ q).data = base.data ++ '?' :: q.data := by
  rw [String.data_append, String.data_append]
  simp [show ("?" : String).data = ['?'] from rfl]

/-- Stripping a query-free URL is the identity. -/
theorem stripQuery_no_mark {s : String} (h : '?' ∉ s.data) :
    stripQuery s = s := by
  apply String.ext
  show (s.data.takeWhile (· != '?')) = s.data
  exact takeWhile_no_mark h

/-- Stripping removes everything from the first `'?'` on. -/
theorem stripQuery_append_query {base : String} (q : String)
    (h : '?' ∉ base.data) : stripQuery (base ++ "?" ++ q) = base := by
  apply String.ext
  show ((base ++ "?" ++ q).data.takeWhile (· != '?')) = base.data
  rw [data_append_query]
  exact takeWhile_append_mark _ h

/-- `starts_with` is unaffected by a query string when the pattern has no
`'?'`. -/
theorem strStartsWith_append_query (base q pat : String)
    (hp : '?' ∉ pat.data) :
    strStartsWith (base ++ "?" ++ q) pat = strStartsWith base pat := by
  unfold strStartsWith
  rw [data_append_query]
  exact isPrefixOf_append_mark pat.data hp base.data q.data

/-- The canonical URL of a link ignores its query string entirely: the
href with any query, with another query, and with no query at all resolve
to the same canonical URL (`src/scrapers/marrkt.rs` lines 129-138). -/
theorem canonicalUrlOfHref_append_query (cfg : ScraperConfig) (base q : String)
    (hb : '?' ∉ cfg.base_url.data) (h : '?' ∉ base.data) :
    canonicalUrlOfHref cfg (base ++ "?" ++ q) = canonicalUrlOfHref cfg base := by
  unfold canonicalUrlOfHref absolutize
  rw [strStartsWith_append_query base q "http" (by decide)]
  cases hs : strStartsWith base "http" with
  | true =>
    simp only [if_pos]
    rw [stripQuery_append_query q h, stripQuery_no_mark h]
  | false =>
    simp only [Bool.false_eq_true, if_false]
    have hassoc : cfg.base_url ++ (base ++ "?" ++ q) =
        (cfg.base_url ++ base) ++ "?" ++ q := by
      rw [String.append_assoc, String.append_assoc, String.append_assoc]
    have hnb : '?' ∉ (cfg.base_url ++ base).data := by
      rw [String.data_append]
      intro hm
      rcases List.mem_append.mp hm with hm | hm
      · exact hb hm
      · exact h hm
    rw [hassoc, stripQuery_append_query q hnb, stripQuery_no_mark hnb]

/-- C1: the identity is a deterministic function of the site name and the
canonical URL — any two emitted records with equal canonical URLs (under
one configuration) have equal identities, however and whenever they were
extracted — and the canonical URL, hence the identity, of a record is
unchanged when its link's query string (everything from the first `'?'`
on) is changed or stripped. -/
theorem identity_deterministic_and_query_invariant :
    (∀ (cfg : ScraperConfig) (s1 s2 : List Jacket) (n1 n2 : Nat)
      (p1 p2 : Product) (j1 j2 : Jacket),
      processProduct cfg s1 n1 p1 = some j1 →
      processProduct cfg s2 n2 p2 = some j2 →
      j1.url = j2.url → j1.id = j2.id) ∧
    (∀ (cfg : ScraperConfig) (base q1 q2 : String),
      '?' ∉ cfg.base_url.data → '?' ∉ base.data →
      canonicalUrlOfHref cfg (base ++ "?" ++ q1) =
        canonicalUrlOfHref cfg (base ++ "?" ++ q2) ∧
      canonicalUrlOfHref cfg (base ++ "?" ++ q1) = canonicalUrlOfHref cfg base ∧
      jacketId cfg.name (canonicalUrlOfHref cfg (base ++ "?" ++ q1)) =
        jacketId cfg.name (canonicalUrlOfHref cfg base)) := by
  constructor
  · intro cfg s1 s2 n1 n2 p1 p2 j1 j2 h1 h2 hurl
    obtain ⟨_, _, _, hid1, _⟩ := processProduct_some h1
    obtain ⟨_, _, _, hid2, _⟩ := processProduct_some h2
    rw [hid1, hid2, hurl]
  · intro cfg base q1 q2 hb h
    have e1 := canonicalUrlOfHref_append_query cfg base q1 hb h
    have e2 := canonicalUrlOfHref_append_query cfg base q2 hb h
    exact ⟨e1.trans e2.symm, e1, by rw [e1]⟩

/-- C1 witness: two concrete containers whose links differ only in the
query string produce records with the same identity. -/
theorem identity_query_invariance_witness :
    ((processProduct marrktConfig [] 5 queryProduct1).getD defaultJacket).id =
      ((processProduct marrktConfig [] 9 queryProduct2).getD defaultJacket).id ∧
    canonicalUrlOfHref marrktConfig
        ("https://www.marrkt.com/products/n1-deck" ++ "?" ++ "variant=1") =
      canonicalUrlOfHref marrktConfig "https://www.marrkt.com/products/n1-deck" := by
  constructor
  · have h1 : processProduct marrktConfig [] 5 queryProduct1 =
        some ((processProduct marrktConfig [] 5 queryProduct1).getD defaultJacket) := by
      rfl
    have h2 : processProduct marrktConfig [] 9 queryProduct2 =
        some ((processProduct marrktConfig [] 9 queryProduct2).getD defaultJacket) := by
      rfl
    exact identity_deterministic_and_query_invariant.1 marrktConfig [] [] 5 9
      queryProduct1 queryProduct2 _ _ h1 h2 (by decide)
  · exact (identity_deterministic_and_query_invariant.2 marrktConfig
      "https://www.marrkt.com/products/n1-deck" "variant=1" "variant=1"
      (by decide) (by decide)).2.1

/-! ## Coordinator lemmas -/

/-- The identifier store only grows during a cycle. -/
theorem checkLoop_monotone (notify : Jacket → NotifyOutcome)
    (existing : List String) :
    ∀ (js : List Jacket) (db : List String) (n : Nat) (x : String),
      x ∈ db → x ∈ (checkLoop notify existing js db n).1 := by
  intro js
  induction js with
  | nil => intro db n x hx; exact hx
  | cons j rest ih =>
    intro db n x hx
    simp only [checkLoop]
    by_cases hc : existing.contains j.id = true
    · rw [hc]; exact ih db n x hx
    · rw [Bool.eq_false_iff.mpr hc]
      simp only [Bool.not_false, if_pos]
      unfold saveJacket
      by_cases hd : db.contains j.id = true
      · rw [if_pos hd]; exact hx
      · rw [if_neg hd]
        cases hn : sendNotification (notify j) with
        | error e => exact List.mem_append_left _ hx
        | ok u => exact ih _ _ x (List.mem_append_left _ hx)

/-- If a cycle completes, the identity of every processed jacket is in the
final store (the store was read with `existing ⊆ db` at the start). -/
theorem checkLoop_ok_mem (notify : Jacket → NotifyOutcome)
    (existing : List String) :
    ∀ (js : List Jacket) (db : List String) (n m : Nat),
      (∀ x ∈ existing, x ∈ db) →
      (checkLoop notify existing js db n).2 = .ok m →
      ∀ j ∈ js, j.id ∈ (checkLoop notify existing js db n).1 := by
  intro js
  induction js with
  | nil => intro db n m hsub hok j hj; simp at hj
  | cons j0 rest ih =>
    intro db n m hsub hok j hj
    rcases List.mem_cons.mp hj with rfl | hj
    · simp only [checkLoop]
      by_cases hc : existing.contains j.id = true
      · rw [hc]
        exact checkLoop_monotone notify existing rest db n j.id
          (hsub j.id (by simpa using hc))
      · rw [Bool.eq_false_iff.mpr hc]
        simp only [Bool.not_false, if_pos]
        revert hok
        simp only [checkLoop]
        rw [Bool.eq_false_iff.mpr hc]
        simp only [Bool.not_false, if_pos]
        unfold saveJacket
        by_cases hd : db.contains j.id = true
        · rw [if_pos hd]; intro hok; exact absurd hok (by simp)
        · rw [if_neg hd]
          cases hn : sendNotification (notify j) with
          | error e => intro hok; exact absurd hok (by simp)
          | ok u =>
            intro _
            exact checkLoop_monotone notify existing rest _ _ j.id
              (List.mem_append_right _ (by simp))
    · revert hok
      simp only [checkLoop]
      by_cases hc : existing.contains j0.id = true
      · rw [hc]
        intro hok
        exact ih db n m hsub hok j hj
      · rw [Bool.eq_false_iff.mpr hc]
        simp only [Bool.not_false, if_pos]
        unfold saveJacket
        by_cases hd : db.contains j0.id = true
        · rw [if_pos hd]; intro hok; exact absurd hok (by simp)
        · rw [if_neg hd]
          cases hn : sendNotification (notify j0) with
          | error e => intro hok; exact absurd hok (by simp)
          | ok u =>
            intro hok
            refine ih _ _ m (fun x hx => List.mem_append_left _ (hsub x hx)) hok j hj

/-- If every jacket's identity is already known, a cycle saves nothing,
notifies nothing, and keeps its running count. -/
theorem checkLoop_skip_all (notify : Jacket → NotifyOutcome)
    (existing : List String) :
    ∀ (js : List Jacket) (db : List String) (n : Nat),
      (∀ j ∈ js, existing.contains j.id = true) →
      checkLoop notify existing js db n = (db, .ok n) := by
  intro js
  induction js with
  | nil => intro db n hall; rfl
  | cons j rest ih =>
    intro db n hall
    simp only [checkLoop]
    rw [hall j (List.mem_cons_self j rest)]
    exact ih db n fun j' hj' => hall j' (List.mem_cons_of_mem j hj')

/-- C2: if a full polling cycle completes, a second cycle over the same
scrape (any listing set with the same identities, under any notification
outcomes) reads a store that already contains every identity: it emits
zero new records, performs no save and no notification, and leaves the
store unchanged. -/
theorem second_cycle_finds_nothing_new (notify1 notify2 : Jacket → NotifyOutcome)
    (db : List String) (js1 js2 : List Jacket) (n : Nat)
    (hids : js2.map (fun j => j.id) = js1.map (fun j => j.id))
    (hok : (checkForNewJackets notify1 db js1).2 = .ok n) :
    checkForNewJackets notify2 (checkForNewJackets notify1 db js1).1 js2 =
      ((checkForNewJackets notify1 db js1).1, .ok 0) := by
  have hall : ∀ j ∈ js2, (checkForNewJackets notify1 db js1).1.contains j.id = true := by
    intro j hj
    have hidmem : j.id ∈ js1.map (fun j => j.id) := by
      rw [← hids]
      exact List.mem_map_of_mem _ hj
    obtain ⟨j', hj', hid⟩ := List.mem_map.mp hidmem
    have := checkLoop_ok_mem notify1 db js1 db 0 n (fun x hx => hx) hok j' hj'
    rw [hid] at this
    simpa using this
  exact checkLoop_skip_all notify2 _ js2 _ 0 hall

/-- C2 witness: a concrete first cycle saves two records; the second cycle
over the same listing identities finds zero new records. -/
theorem second_cycle_witness :
    ([jacketA, jacketB].map (fun j => j.id) = [jacketA, jacketB].map (fun j => j.id)) ∧
    (checkForNewJackets (fun _ => .noWebhook) [] [jacketA, jacketB]).2 = .ok 2 ∧
    checkForNewJackets (fun _ => .noWebhook)
        (checkForNewJackets (fun _ => .noWebhook) [] [jacketA, jacketB]).1
        [jacketA, jacketB] =
      ((checkForNewJackets (fun _ => .noWebhook) [] [jacketA, jacketB]).1, .ok 0) :=
  ⟨rfl, by decide,
    second_cycle_finds_nothing_new (fun _ => .noWebhook) (fun _ => .noWebhook)
      [] [jacketA, jacketB] [jacketA, jacketB] 2 rfl (by decide)⟩

/-- C7 (code-bug evidence): a transport-level notification failure for the
first new record makes `check_for_new_jackets` return that error — the
record's identity is already persisted and stays persisted, but the cycle
aborts, the second new record is neither saved nor notified, and the
method reports failure instead of swallowing it, contradicting the
module's own documentation that Discord failures are logged and do not
stop the process. -/
theorem notify_transport_error_aborts_cycle :
    checkForNewJackets (fun _ => .transportError "connection error") []
        [jacketA, jacketB] =
      (["a"], .error "connection error") := by
  decide

/-! ## Title formation -/

/-- C9 counterexample: a container whose brand node is absent is emitted
with the bare product name `"N-1 Deck Jacket"` — not with the
`"Unknown Brand - "` prefix the concatenation rule would give — so the
emitted title is not always `"{brand} - {name}"` with the substituted
brand (`src/scrapers/marrkt.rs` lines 160-164 drop the separator when the
brand is unknown). -/
theorem brand_absent_title_is_bare_name :
    (processProduct marrktConfig [] 0 noBrandProduct).map (fun j => j.title) =
      some "N-1 Deck Jacket" ∧
    brandOf marrktConfig noBrandProduct = "Unknown Brand" ∧
    "N-1 Deck Jacket" ≠ "Unknown Brand" ++ " - " ++ "N-1 Deck Jacket" := by
  refine ⟨by decide, by decide, by decide⟩

/-- Under the match filter, an emitted title contains a configured term. -/
theorem emitted_title_contains_term {cfg : ScraperConfig} {title : String}
    (h : matchesSearchTerm cfg title = true) :
    ∃ term ∈ cfg.search_terms,
      strContains (lowerStr title) (lowerStr term) = true := by
  unfold matchesSearchTerm at h
  exact List.any_eq_true.mp h

/-- C9 (amended): every emitted record's title is the bare product name
when the brand is unknown and `"{brand} - {name}"` otherwise (with
`"Unknown Item"` substituted for a missing title node); and whenever every
configured search term is non-empty — as in the Marrkt configuration —
the emitted title is non-empty, because the match filter requires it to
contain a term. -/
theorem emitted_title_shape_and_nonempty (cfg : ScraperConfig)
    (seen : List Jacket) (now : Nat) (p : Product) (j : Jacket)
    (hterms : ∀ t ∈ cfg.search_terms, t ≠ "")
    (h : processProduct cfg seen now p = some j) :
    (j.title = productTitleOf p ∨
      j.title = brandOf cfg p ++ " - " ++ productTitleOf p) ∧
    j.title ≠ "" := by
  obtain ⟨href, _, _, _, htitle, hmatch, _⟩ := processProduct_some h
  constructor
  · rw [htitle]
    unfold titleOf
    by_cases hb : (brandOf cfg p == "Unknown Brand") = true
    · simp [hb]
    · simp [Bool.eq_false_iff.mpr hb]
  · intro hempty
    rw [hempty] at htitle
    rw [← htitle] at hmatch
    obtain ⟨term, hmem, hcont⟩ := emitted_title_contains_term hmatch
    have hinf : (lowerStr term).data <:+: (lowerStr "").data :=
      of_decide_eq_true hcont
    have : (lowerStr term).data = [] := by
      rw [show (lowerStr "").data = [] from rfl] at hinf
      exact List.infix_nil.mp hinf
    have hterm : term.data = [] := by
      have : term.data.map Char.toLower = [] := this
      exact List.map_eq_nil_iff.mp this
    exact hterms term hmem (String.ext hterm)

/-- C9 witness: the Marrkt terms are non-empty, and the concrete emitted
record has a non-empty, bare-name title. -/
theorem emitted_title_witness :
    (∀ t ∈ marrktConfig.search_terms, t ≠ "") ∧
    (((processProduct marrktConfig [] 0 noBrandProduct).getD defaultJacket).title =
        productTitleOf noBrandProduct ∨
      ((processProduct marrktConfig [] 0 noBrandProduct).getD defaultJacket).title =
        brandOf marrktConfig noBrandProduct ++ " - " ++ productTitleOf noBrandProduct) ∧
    ((processProduct marrktConfig [] 0 noBrandProduct).getD defaultJacket).title ≠ "" := by
  have h : processProduct marrktConfig [] 0 noBrandProduct =
      some ((processProduct marrktConfig [] 0 noBrandProduct).getD defaultJacket) := by
    rfl
  have := emitted_title_shape_and_nonempty marrktConfig [] 0 noBrandProduct _
    (by decide) h
  exact ⟨by decide, this.1, this.2⟩

/-! ## Transport failure behaviour -/

/-- C6 counterexample: page 1 of the first search term succeeds and yields
one matching record, page 2 answers 500 — and `search_jackets` returns the
error, so the record collected from page 1 is not delivered: no result set
reaches the caller at all. -/
theorem fetch_failure_discards_partial_results :
    searchJackets failingFetch marrktConfig 0 =
      .error (pageErrorMsg 2 "n-1 deck jacket" marrktConfig.name 500) ∧
    (processPage marrktConfig 0 []
      (failingFetch (buildSearchUrl marrktConfig "n-1 deck jacket")).products).length = 1 := by
  constructor
  · decide
  · decide

/-- C6 (amended): a non-success HTTP status on any reached page aborts the
pagination walk with an error carrying that page's number and status, and
an erroring walk for a search term makes the whole `search_jackets` call
return that error — the partial results already collected (the walk's
dedup map) are discarded, not delivered to the caller. -/
theorem fetch_failure_aborts_search :
    (∀ (fetch : String → FetchPage) (cfg : ScraperConfig) (now : Nat)
      (term : String) (fuel pageNum : Nat) (url : String)
      (seen : List Jacket) (log : List String),
      fuel ≠ 0 → pageNum ≤ maxPages →
      isSuccessStatus (fetch url).status = false →
      paginationWalk fetch cfg now term fuel pageNum url seen log =
        (log ++ [url],
          .error (pageErrorMsg pageNum term cfg.name (fetch url).status))) ∧
    (∀ (fetch : String → FetchPage) (cfg : ScraperConfig) (now : Nat)
      (term : String) (rest : List String) (seen : List Jacket) (e : String),
      (searchTermWalk fetch cfg now seen term).2 = .error e →
      searchTermsLoop fetch cfg now (term :: rest) seen = .error e) := by
  constructor
  · intro fetch cfg now term fuel pageNum url seen log hfuel hpn hst
    cases fuel with
    | zero => exact absurd rfl hfuel
    | succ f =>
      simp only [paginationWalk]
      rw [if_neg (by omega), hst]
      rfl
  · intro fetch cfg now term rest seen e herr
    simp only [searchTermsLoop]
    rw [herr]

/-- C6 witness: a concrete all-failing fetch aborts page 1 of the walk
with the status-500 error, and the term loop returns it. -/
theorem fetch_failure_witness :
    paginationWalk alwaysFailFetch marrktConfig 0 "deck jacket" 51 1 "u" [] [] =
      (["u"], .error (pageErrorMsg 1 "deck jacket" marrktConfig.name 500)) ∧
    searchTermsLoop alwaysFailFetch marrktConfig 0 ["deck jacket"] [] =
      .error (pageErrorMsg 1 "deck jacket" marrktConfig.name
        (alwaysFailFetch (buildSearchUrl marrktConfig "deck jacket")).status) := by
  constructor
  · exact fetch_failure_aborts_search.1 alwaysFailFetch marrktConfig 0
      "deck jacket" 51 1 "u" [] [] (by decide) (by decide) (by decide)
  · have hw := fetch_failure_aborts_search.1 alwaysFailFetch marrktConfig 0
      "deck jacket" 51 1 (buildSearchUrl marrktConfig "deck jacket") [] []
      (by decide) (by decide) (by decide)
    exact fetch_failure_aborts_search.2 alwaysFailFetch marrktConfig 0
      "deck jacket" [] [] _ (by rw [searchTermWalk, hw])

/-! ## Pagination termination lemmas -/

/-- The walk fetches at most one page per remaining page number up to the
ceiling. -/
theorem paginationWalk_log_bound (fetch : String → FetchPage)
    (cfg : ScraperConfig) (now : Nat) (term : String) :
    ∀ (fuel pageNum : Nat) (url : String) (seen : List Jacket)
      (log : List String),
      ((paginationWalk fetch cfg now term fuel pageNum url seen log).1).length ≤
        log.length + (maxPages + 1 - pageNum) := by
  intro fuel
  induction fuel with
  | zero => intro pageNum url seen log; simp [paginationWalk]
  | succ f ih =>
    intro pageNum url seen log
    simp only [paginationWalk]
    by_cases hpn : maxPages < pageNum
    · rw [if_pos hpn]; simp
    · rw [if_neg hpn]
      have hp50 : pageNum ≤ 50 := by simpa [maxPages] using hpn
      cases hst : isSuccessStatus (fetch url).status with
      | false =>
        simp only [Bool.not_false]
        rw [if_true]
        simp only [List.length_append, List.length_singleton, maxPages]
        omega
      | true =>
        simp only [Bool.not_true]
        rw [if_neg (by simp)]
        cases hnext : extractNextPageUrl cfg (fetch url) with
        | none =>
          simp only [List.length_append, List.length_singleton, maxPages]
          omega
        | some nextUrl =>
          dsimp only
          by_cases heq : (nextUrl == url) = true
          · rw [if_pos heq]
            simp only [List.length_append, List.length_singleton, maxPages]
            omega
          · rw [if_neg heq]
            have := ih (pageNum + 1) nextUrl
              (processPage cfg now seen (fetch url).products) (log ++ [url])
            simp only [List.length_append, List.length_singleton, maxPages] at this ⊢
            omega

/-- Along a chain of pages `u k, …, u N` whose last page links to itself,
the walk started at `u k` with matching fuel fetches exactly the rest of
the chain. -/
theorem paginationWalk_chain (fetch : String → FetchPage)
    (cfg : ScraperConfig) (now : Nat) (term : String) (N : Nat)
    (u : Nat → String) (hN1 : 1 ≤ N) (hN50 : N ≤ 50)
    (hinj : ∀ i j, 1 ≤ i → i ≤ N → 1 ≤ j → j ≤ N → u i = u j → i = j)
    (hsucc : ∀ i, 1 ≤ i → i ≤ N → isSuccessStatus (fetch (u i)).status = true)
    (hnext : ∀ i, 1 ≤ i → i < N →
      extractNextPageUrl cfg (fetch (u i)) = some (u (i + 1)))
    (hself : extractNextPageUrl cfg (fetch (u N)) = some (u N)) :
    ∀ (d k : Nat) (seen : List Jacket) (log : List String),
      1 ≤ k → k + d = N →
      (paginationWalk fetch cfg now term (52 - k) k (u k) seen log).1 =
        log ++ (List.range' k (d + 1)).map u := by
  intro d
  induction d with
  | zero =>
    intro k seen log hk1 hkN
    have hkNe : k = N := by omega
    obtain ⟨f, hf⟩ : ∃ f, 52 - k = f + 1 := ⟨51 - k, by omega⟩
    rw [hf]
    simp only [paginationWalk]
    rw [if_neg (by simp only [maxPages]; omega), hsucc k hk1 (by omega)]
    simp only [Bool.not_true, Bool.false_eq_true, if_false]
    rw [hkNe, hself]
    simp only [beq_self_eq_true, if_true]
    simp [List.range'_one]
  | succ d ih =>
    intro k seen log hk1 hkN
    have hkN' : k < N := by omega
    obtain ⟨f, hf⟩ : ∃ f, 52 - k = f + 1 := ⟨51 - k, by omega⟩
    rw [hf]
    simp only [paginationWalk]
    rw [if_neg (by simp only [maxPages]; omega), hsucc k hk1 (by omega),
      hnext k hk1 hkN']
    simp only [Bool.not_true, Bool.false_eq_true, if_false]
    have hne : (u (k + 1) == u k) = false := by
      refine beq_eq_false_iff_ne.mpr fun he => ?_
      have := hinj (k + 1) k (by omega) (by omega) (by omega) (by omega) he
      omega
    rw [hne]
    simp only [Bool.false_eq_true, if_false]
    have hff : f = 52 - (k + 1) := by omega
    rw [hff, ih (k + 1) (processPage cfg now seen (fetch (u k)).products)
      (log ++ [u k]) (by omega) (by omega)]
    simp [List.range'_succ, Nat.add_assoc]

/-- A successfully fetched page with no next-page link ends the walk with
exactly that page processed. -/
theorem paginationWalk_stops_no_next (fetch : String → FetchPage)
    (cfg : ScraperConfig) (now : Nat) (term : String) (fuel pageNum : Nat)
    (url : String) (seen : List Jacket) (log : List String)
    (hfuel : fuel ≠ 0) (hpn : pageNum ≤ maxPages)
    (hst : isSuccessStatus (fetch url).status = true)
    (hnone : extractNextPageUrl cfg (fetch url) = none) :
    paginationWalk fetch cfg now term fuel pageNum url seen log =
      (log ++ [url], .ok (processPage cfg now seen (fetch url).products)) := by
  cases fuel with
  | zero => exact absurd rfl hfuel
  | succ f =>
    simp only [paginationWalk]
    rw [if_neg (by omega), hst]
    simp only [Bool.not_true, Bool.false_eq_true, if_false]
    rw [hnone]

/-- C8: the pagination walk for one (site, search term) terminates:
(i) it never fetches more than the 50-page ceiling; (ii) on a synthetic
page sequence `u 1, …, u N` where each page chains to the next and page
`u N` links back to itself, it fetches exactly pages `u 1, …, u N` — it
stops after page `N`, not earlier or later; (iii) a page without a
next-page link ends the walk at that page. -/
theorem pagination_terminates :
    (∀ (fetch : String → FetchPage) (cfg : ScraperConfig) (now : Nat)
      (seen : List Jacket) (term : String),
      ((searchTermWalk fetch cfg now seen term).1).length ≤ 50) ∧
    (∀ (fetch : String → FetchPage) (cfg : ScraperConfig) (now : Nat)
      (term : String) (N : Nat) (u : Nat → String),
      1 ≤ N → N ≤ 50 →
      (∀ i j, 1 ≤ i → i ≤ N → 1 ≤ j → j ≤ N → u i = u j → i = j) →
      (∀ i, 1 ≤ i → i ≤ N → isSuccessStatus (fetch (u i)).status = true) →
      (∀ i, 1 ≤ i → i < N →
        extractNextPageUrl cfg (fetch (u i)) = some (u (i + 1))) →
      extractNextPageUrl cfg (fetch (u N)) = some (u N) →
      ∀ (seen : List Jacket),
        (paginationWalk fetch cfg now term 51 1 (u 1) seen []).1 =
          (List.range' 1 N).map u) ∧
    (∀ (fetch : String → FetchPage) (cfg : ScraperConfig) (now : Nat)
      (term : String) (fuel pageNum : Nat) (url : String)
      (seen : List Jacket) (log : List String),
      fuel ≠ 0 → pageNum ≤ maxPages →
      isSuccessStatus (fetch url).status = true →
      extractNextPageUrl cfg (fetch url) = none →
      paginationWalk fetch cfg now term fuel pageNum url seen log =
        (log ++ [url], .ok (processPage cfg now seen (fetch url).products))) := by
  refine ⟨?_, ?_, paginationWalk_stops_no_next⟩
  · intro fetch cfg now seen term
    have := paginationWalk_log_bound fetch cfg now term 51 1
      (buildSearchUrl cfg term) seen []
    simpa [searchTermWalk, maxPages] using this
  · intro fetch cfg now term N u hN1 hN50 hinj hsucc hnext hself seen
    have := paginationWalk_chain fetch cfg now term N u hN1 hN50 hinj hsucc
      hnext hself (N - 1) 1 seen [] le_rfl (by omega)
    simpa [show N - 1 + 1 = N from by omega] using this

/-- C8 witness: on the concrete two-page sequence whose second page links
to itself, the walk fetches exactly pages 1 and 2 and stops. -/
theorem pagination_terminates_witness :
    (paginationWalk loopFetch marrktConfig 0 "t" 51 1 (loopUrl 1) [] []).1 =
      ["http://x/p1", "http://x/p2"] := by
  have h := pagination_terminates.2.1 loopFetch marrktConfig 0 "t" 2 loopUrl
    (by omega) (by omega)
    (by
      intro i j hi1 hi2 hj1 hj2 he
      interval_cases i <;> interval_cases j <;> first | rfl | exact absurd he (by decide))
    (by intro i hi1 hi2; interval_cases i <;> decide)
    (by intro i hi1 hi2; interval_cases i <;> decide)
    (by decide) []
  simpa using h

/-! ## Identity scheme: digest value lemmas -/

/-- The value of a byte list is below `256 ^ length`. -/
theorem bytesToNat_lt : ∀ (l : List Nat), (∀ b ∈ l, b < 256) →
    bytesToNat l < 256 ^ l.length := by
  intro l
  induction l with
  | nil => intro _; simp [bytesToNat]
  | cons b rest ih =>
    intro h
    have hb : b < 256 := h b (List.mem_cons_self b rest)
    have hr := ih fun x hx => h x (List.mem_cons_of_mem b hx)
    simp only [bytesToNat, List.length_cons, pow_succ]
    omega

/-- Byte lists of equal length with byte-sized entries have equal values
only when equal. -/
theorem bytesToNat_inj : ∀ (l1 l2 : List Nat), l1.length = l2.length →
    (∀ b ∈ l1, b < 256) → (∀ b ∈ l2, b < 256) →
    bytesToNat l1 = bytesToNat l2 → l1 = l2 := by
  intro l1
  induction l1 with
  | nil =>
    intro l2 hlen _ _ _
    cases l2 with
    | nil => rfl
    | cons b t => simp at hlen
  | cons b1 t1 ih =>
    intro l2 hlen h1 h2 hv
    cases l2 with
    | nil => simp at hlen
    | cons b2 t2 =>
      have hb1 : b1 < 256 := h1 b1 (List.mem_cons_self b1 t1)
      have hb2 : b2 < 256 := h2 b2 (List.mem_cons_self b2 t2)
      simp only [bytesToNat] at hv
      have hb : b1 = b2 ∧ bytesToNat t1 = bytesToNat t2 := by omega
      have ht : t1 = t2 := by
        refine ih t2 (by simpa using hlen) ?_ ?_ hb.2
        · exact fun x hx => h1 x (List.mem_cons_of_mem b1 hx)
        · exact fun x hx => h2 x (List.mem_cons_of_mem b2 hx)
      rw [hb.1, ht]

/-- C3 counterexample (to the universal distinctness part): because every
identity is a 128-bit digest rendered in hex, the map from site names to
identities at a fixed URL cannot be injective — there exist two different
site names whose identities for the same URL coincide — so "different site
names receive different identities" does not hold universally. -/
theorem identity_collision_exists :
    ¬ (∀ s1 s2 u : String, s1 ≠ s2 → jacketId s1 u ≠ jacketId s2 u) := by
  intro hclaim
  have hF : ∀ k : Nat,
      bytesToNat (md5Bytes (strBytes (String.mk (List.replicate k 'a') ++ ":" ++ "u"))) <
        256 ^ 16 := by
    intro k
    have h1 := bytesToNat_lt _ (md5Bytes_lt
      (strBytes (String.mk (List.replicate k 'a') ++ ":" ++ "u")))
    rwa [md5Bytes_length] at h1
  obtain ⟨m, n, hmn, heq⟩ := Finite.exists_ne_map_eq_of_infinite
    (fun k : Nat =>
      (⟨bytesToNat (md5Bytes (strBytes (String.mk (List.replicate k 'a') ++ ":" ++ "u"))),
        hF k⟩ : Fin (256 ^ 16)))
  have hval := congrArg Fin.val heq
  have hbytes :
      md5Bytes (strBytes (String.mk (List.replicate m 'a') ++ ":" ++ "u")) =
        md5Bytes (strBytes (String.mk (List.replicate n 'a') ++ ":" ++ "u")) := by
    refine bytesToNat_inj _ _ ?_ (md5Bytes_lt _) (md5Bytes_lt _) hval
    rw [md5Bytes_length, md5Bytes_length]
  have hid : jacketId (String.mk (List.replicate m 'a')) "u" =
      jacketId (String.mk (List.replicate n 'a')) "u" := by
    unfold jacketId md5Hex
    rw [hbytes]
  have hs : String.mk (List.replicate m 'a') ≠ String.mk (List.replicate n 'a') := by
    intro he
    apply hmn
    have := congrArg (fun s : String => s.data.length) he
    simpa using this
  exact hclaim _ _ "u" hs hid

/-- C3 (amended): every emitted record's identity is the deterministic
MD5-hex of `"{site_name}:{canonical_url}"`; the hashed inputs for two
different site names (same URL) always differ — the site name is part of
the hashed input — and concretely two sites sharing a canonical URL get
different identities, though digest-level distinctness is not universal. -/
theorem identity_derived_from_site_and_url :
    (∀ (cfg : ScraperConfig) (seen : List Jacket) (now : Nat) (p : Product)
      (j : Jacket), processProduct cfg seen now p = some j →
      j.id = jacketId cfg.name j.url) ∧
    (∀ s1 s2 u : String, s1 ≠ s2 → s1 ++ ":" ++ u ≠ s2 ++ ":" ++ u) ∧
    jacketId "Marrkt" "https://www.marrkt.com/products/n1-deck" ≠
      jacketId "OtherSite" "https://www.marrkt.com/products/n1-deck" := by
  refine ⟨?_, ?_, ?_⟩
  · intro cfg seen now p j h
    obtain ⟨_, _, _, hid, _⟩ := processProduct_some h
    exact hid
  · intro s1 s2 u hne he
    apply hne
    have hd := congrArg String.data he
    rw [String.data_append, String.data_append, String.data_append,
      String.data_append] at hd
    exact String.ext (List.append_cancel_right (List.append_cancel_right hd))
  · decide

/-- C3 witness: the concrete emitted record's identity is the MD5-hex of
site and canonical URL, and two concrete different site names give
different hashed inputs. -/
theorem identity_site_witness :
    ((processProduct marrktConfig [] 0 noBrandProduct).getD defaultJacket).id =
      jacketId marrktConfig.name
        ((processProduct marrktConfig [] 0 noBrandProduct).getD defaultJacket).url ∧
    ("A" : String) ++ ":" ++ "u" ≠ "B" ++ ":" ++ "u" := by
  constructor
  · have h : processProduct marrktConfig [] 0 noBrandProduct =
        some ((processProduct marrktConfig [] 0 noBrandProduct).getD defaultJacket) := by
      rfl
    exact identity_derived_from_site_and_url.1 marrktConfig [] 0 noBrandProduct _ h
  · exact identity_derived_from_site_and_url.2.1 "A" "B" "u" (by decide)
